import Mathlib

/-!
Verification of the retrieval-orchestration layer of the mcp_server_client
repository: the RAG orchestrator (`rag.service.ts`) and the MCP tool
registry (`mcp-client.service.ts`) are shallowly embedded as executable
Lean functions, and the testable properties of the spec are settled against
this embedding.

JavaScript strings are modelled as `List Char`; JavaScript runtime values
flowing through `JSON.parse` and the metadata maps are modelled by the
inductive `JValue`; a thrown exception is an `Except.error`.
-/

namespace MCP

/-! ### Character and string helpers with JavaScript semantics -/

/-- The single-quote character. -/
def squote : Char := Char.ofNat 39

/-- The opening curly brace character. -/
def lcurly : Char := Char.ofNat 123

/-- The closing curly brace character. -/
def rcurly : Char := Char.ofNat 125

/-- The backslash character. -/
def bslash : Char := Char.ofNat 92

/-- The double-quote character. -/
def dquote : Char := '"'

/-- Test whether `hay` begins with `needle`. -/
def leadsWith : List Char → List Char → Bool
  | [], _ => true
  | _ :: _, [] => false
  | a :: as, b :: bs => a == b && leadsWith as bs

/-- Test whether `needle` occurs contiguously somewhere in `hay`
(JavaScript `String.prototype.includes`). -/
def containsSeq (needle : List Char) : List Char → Bool
  | [] => leadsWith needle []
  | c :: cs => leadsWith needle (c :: cs) || containsSeq needle cs

/-- JavaScript `hay.includes(needle)` on `String`. -/
def jsIncludes (hay needle : String) : Bool := containsSeq needle.data hay.data

/-- Fuelled worker for `splitSeq`. -/
def splitGo (sep : List Char) : Nat → List Char → List Char → List (List Char)
  | 0, rest, acc => [acc.reverse ++ rest]
  | _ + 1, [], acc => [acc.reverse]
  | fuel + 1, c :: cs, acc =>
    if leadsWith sep (c :: cs) then
      acc.reverse :: splitGo sep fuel (List.drop sep.length (c :: cs)) []
    else
      splitGo sep fuel cs (c :: acc)

/-- JavaScript `s.split(sep)` for a nonempty literal separator. -/
def splitSeq (sep l : List Char) : List (List Char) :=
  if sep.isEmpty then [l] else splitGo sep (l.length + 1) l []

/-- JavaScript `s.split(sep)` on `String`. -/
def jsSplit (s sep : String) : List String :=
  (splitSeq sep.data s.data).map String.mk

/-- Whitespace recognised by JavaScript `trim` / regex `\s`
(ASCII subset: space, tab, line feed, carriage return, vertical tab,
form feed). -/
def isWsChar (c : Char) : Bool :=
  c == ' ' || c == '\t' || c == '\n' || c == '\r' || c.toNat == 11 || c.toNat == 12

/-- JavaScript `s.trim()` on a character list. -/
def trimChars (l : List Char) : List Char :=
  ((l.dropWhile isWsChar).reverse.dropWhile isWsChar).reverse

/-- JavaScript `s.trim()` on `String`. -/
def jsTrim (s : String) : String := String.mk (trimChars s.data)

/-- JavaScript `s.toLowerCase()` (ASCII). -/
def jsLower (s : String) : String := String.mk (s.data.map Char.toLower)

/-- JavaScript `s.startsWith(p)` on `String`. -/
def jsBeginsWith (s p : String) : Bool := leadsWith p.data s.data

/-- Index of the first occurrence of character `c`, `-1` when absent
(JavaScript `indexOf`). -/
def jsIndexOfChar (cs : List Char) (c : Char) : Int :=
  match cs.findIdx? (· == c) with
  | some i => (i : Int)
  | none => -1

/-- Index of the last occurrence of character `c`, `-1` when absent
(JavaScript `lastIndexOf`). -/
def jsLastIndexOfChar (cs : List Char) (c : Char) : Int :=
  match cs.reverse.findIdx? (· == c) with
  | some i => (cs.length : Int) - 1 - (i : Int)
  | none => -1

/-- JavaScript `s.substring(i)`: a negative start index is clamped to `0`. -/
def jsSubstringFrom (cs : List Char) (i : Int) : List Char := cs.drop i.toNat

/-! ### JavaScript runtime values -/

/-- A JavaScript runtime value as it flows through `JSON.parse`, the
metadata maps and template literals.  Numbers are kept exactly as
mantissa `m` and decimal exponent `e` (value `m * 10 ^ e`). -/
inductive JValue where
  | jstr : String → JValue
  | jnum : Int → Int → JValue
  | jbool : Bool → JValue
  | jnull : JValue
  | jundefined : JValue
  | jobj : List (String × JValue) → JValue
  | jarr : List JValue → JValue
deriving Repr

/-- Assign `m[k] = v` with JavaScript object semantics: an existing key
keeps its position and gets the new value, a fresh key is appended. -/
def setField {α : Type} (m : List (String × α)) (k : String) (v : α) :
    List (String × α) :=
  match m with
  | [] => [(k, v)]
  | (k0, v0) :: rest =>
    if k0 = k then (k0, v) :: rest else (k0, v0) :: setField rest k v

/-- JavaScript truthiness of a value. -/
def jsTruthy : JValue → Bool
  | .jstr s => !(s == "")
  | .jnum m _ => !(m == 0)
  | .jbool b => b
  | .jnull => false
  | .jundefined => false
  | .jobj _ => true
  | .jarr _ => true

/-- The JavaScript test used by the source: typeof the value is object
and the value is not null. -/
def isObjectType : JValue → Bool
  | .jobj _ => true
  | .jarr _ => true
  | _ => false

/-- JavaScript property access `v[k]`: objects look the key up, anything
else yields `undefined`. -/
def jsGet : JValue → String → JValue
  | .jobj fs, k =>
    match fs.lookup k with
    | some v => v
    | none => .jundefined
  | _, _ => .jundefined

/-- JavaScript `Object.entries` (arrays enumerate indices). -/
def jsEntries : JValue → List (String × JValue)
  | .jobj fs => fs
  | .jarr xs => xs.enum.map fun p => (Nat.repr p.1, p.2)
  | _ => []

/-- Strip trailing zeros from a mantissa while the exponent is negative. -/
def stripZeros : Nat → Int → Int → Int × Int
  | 0, m, e => (m, e)
  | f + 1, m, e =>
    if e < 0 && m % 10 == 0 && !(m == 0) then stripZeros f (m / 10) (e + 1)
    else (m, e)

/-- Decimal rendering of a mantissa/exponent number, matching JavaScript
number-to-string conversion on the plain decimal range. -/
def decRepr (m e : Int) : String :=
  if e ≥ 0 then Int.repr (m * 10 ^ e.toNat)
  else
    let p := stripZeros 100 m e
    if p.2 ≥ 0 then Int.repr (p.1 * 10 ^ p.2.toNat)
    else
      let k := (-p.2).toNat
      let s := Nat.repr p.1.natAbs
      let s := if s.length ≤ k then
          String.mk (List.replicate (k + 1 - s.length) '0') ++ s
        else s
      let cs := s.data
      (if p.1 < 0 then "-" else "") ++ String.mk (cs.take (cs.length - k)) ++
        "." ++ String.mk (cs.drop (cs.length - k))

mutual

/-- JavaScript string conversion `String(v)` / template interpolation. -/
def jsToString : JValue → String
  | .jstr s => s
  | .jnum m e => decRepr m e
  | .jbool b => cond b "true" "false"
  | .jnull => "null"
  | .jundefined => "undefined"
  | .jobj _ => "[object Object]"
  | .jarr xs => jsArrToString xs

/-- JavaScript `Array.prototype.toString`: elements joined with commas,
`null` and `undefined` elements rendered empty. -/
def jsArrToString : List JValue → String
  | [] => ""
  | x :: xs =>
    let s := match x with
      | .jnull => ""
      | .jundefined => ""
      | v => jsToString v
    match xs with
    | [] => s
    | _ :: _ => s ++ "," ++ jsArrToString xs

end

/-- Escape a string body for JSON output. -/
def escJsonChar (c : Char) : List Char :=
  if c == dquote then [bslash, dquote]
  else if c == bslash then [bslash, bslash]
  else if c == '\n' then [bslash, 'n']
  else if c == '\r' then [bslash, 'r']
  else if c == '\t' then [bslash, 't']
  else [c]

mutual

/-- Model of `JSON.stringify` on the modelled values (`undefined` at top level
renders as the word `undefined`, matching its use inside a template
literal). -/
def jsonStringify : JValue → String
  | .jstr s => String.mk (dquote :: (s.data.flatMap escJsonChar) ++ [dquote])
  | .jnum m e => decRepr m e
  | .jbool b => cond b "true" "false"
  | .jnull => "null"
  | .jundefined => "undefined"
  | .jobj fs => String.mk [lcurly] ++ jsonStringifyFields fs ++ String.mk [rcurly]
  | .jarr xs => "[" ++ jsonStringifyElems xs ++ "]"

/-- Object fields for `jsonStringify`. -/
def jsonStringifyFields : List (String × JValue) → String
  | [] => ""
  | (k, v) :: rest =>
    let f := String.mk (dquote :: (k.data.flatMap escJsonChar) ++ [dquote]) ++
      ":" ++ jsonStringify v
    match rest with
    | [] => f
    | _ :: _ => f ++ "," ++ jsonStringifyFields rest

/-- Array elements for `jsonStringify`. -/
def jsonStringifyElems : List JValue → String
  | [] => ""
  | x :: rest =>
    let f := jsonStringify x
    match rest with
    | [] => f
    | _ :: _ => f ++ "," ++ jsonStringifyElems rest

end

/-! ### `JSON.parse` -/

/-- JSON whitespace (space, tab, line feed, carriage return). -/
def isJsonWs (c : Char) : Bool :=
  c == ' ' || c == '\t' || c == '\n' || c == '\r'

/-- Skip JSON whitespace. -/
def pSkipWs (cs : List Char) : List Char := cs.dropWhile isJsonWs

/-- Hexadecimal digit value. -/
def hexVal (c : Char) : Option Nat :=
  if '0' ≤ c ∧ c ≤ '9' then some (c.toNat - '0'.toNat)
  else if 'a' ≤ c ∧ c ≤ 'f' then some (c.toNat - 'a'.toNat + 10)
  else if 'A' ≤ c ∧ c ≤ 'F' then some (c.toNat - 'A'.toNat + 10)
  else none

/-- Parse the body of a JSON string literal (the opening quote already
consumed), handling the escape sequences of ECMA-404. -/
def parseStrBody : Nat → List Char → List Char → Option (String × List Char)
  | 0, _, _ => none
  | _ + 1, [], _ => none
  | fuel + 1, c :: rest, acc =>
    if c == dquote then some (String.mk acc.reverse, rest)
    else if c == bslash then
      match rest with
      | [] => none
      | e :: rest2 =>
        if e == dquote then parseStrBody fuel rest2 (dquote :: acc)
        else if e == bslash then parseStrBody fuel rest2 (bslash :: acc)
        else if e == '/' then parseStrBody fuel rest2 ('/' :: acc)
        else if e == 'b' then parseStrBody fuel rest2 (Char.ofNat 8 :: acc)
        else if e == 'f' then parseStrBody fuel rest2 (Char.ofNat 12 :: acc)
        else if e == 'n' then parseStrBody fuel rest2 ('\n' :: acc)
        else if e == 'r' then parseStrBody fuel rest2 ('\r' :: acc)
        else if e == 't' then parseStrBody fuel rest2 ('\t' :: acc)
        else if e == 'u' then
          match rest2 with
          | h1 :: h2 :: h3 :: h4 :: rest3 =>
            match hexVal h1, hexVal h2, hexVal h3, hexVal h4 with
            | some a, some b, some c', some d =>
              parseStrBody fuel rest3
                (Char.ofNat (((a * 16 + b) * 16 + c') * 16 + d) :: acc)
            | _, _, _, _ => none
          | _ => none
        else none
    else if c.toNat < 32 then none
    else parseStrBody fuel rest (c :: acc)

/-- Parse a run of decimal digits. -/
def takeDigits (cs : List Char) : List Char × List Char :=
  (cs.takeWhile Char.isDigit, cs.dropWhile Char.isDigit)

/-- Digits to a natural number. -/
def digitsToNat (ds : List Char) : Nat :=
  ds.foldl (fun a c => a * 10 + (c.toNat - '0'.toNat)) 0

/-- Parse a JSON number into mantissa/exponent form. -/
def parseNum (cs : List Char) : Option (JValue × List Char) :=
  let sign : Int := if cs.headD ' ' == '-' then -1 else 1
  let cs1 := if cs.headD ' ' == '-' then cs.tail else cs
  match cs1 with
  | [] => none
  | d :: _ =>
    if !d.isDigit then none
    else if d == '0' ∧ (cs1.tail.headD ' ').isDigit then none
    else
      let p := takeDigits cs1
      let intDigits := p.1
      let afterInt := p.2
      let fr :=
        match afterInt with
        | '.' :: fs =>
          let q := takeDigits fs
          if q.1.isEmpty then none else some (q.1, q.2)
        | _ => some ([], afterInt)
      match fr with
      | none => none
      | some (fracDigits, afterFrac) =>
        let ex :=
          match afterFrac with
          | e :: es =>
            if e == 'e' ∨ e == 'E' then
              let esign : Int := if es.headD ' ' == '-' then -1 else 1
              let es1 := if es.headD ' ' == '-' ∨ es.headD ' ' == '+' then es.tail else es
              let r := takeDigits es1
              if r.1.isEmpty then none
              else some (esign * (digitsToNat r.1 : Int), r.2)
            else some (0, afterFrac)
          | [] => some (0, ([] : List Char))
        match ex with
        | none => none
        | some (expVal, rest) =>
          let mantissa : Int := sign * (digitsToNat (intDigits ++ fracDigits) : Int)
          some (.jnum mantissa (expVal - (fracDigits.length : Int)), rest)

mutual

/-- Parse one JSON value (leading whitespace allowed). -/
def parseVal : Nat → List Char → Option (JValue × List Char)
  | 0, _ => none
  | fuel + 1, cs =>
    match pSkipWs cs with
    | [] => none
    | c :: rest =>
      if c == dquote then
        match parseStrBody (fuel + 1) rest [] with
        | some (s, rest2) => some (.jstr s, rest2)
        | none => none
      else if c == lcurly then
        match pSkipWs rest with
        | d :: rest2 => if d == rcurly then some (.jobj [], rest2) else parseFields fuel rest []
        | [] => none
      else if c == '[' then
        match pSkipWs rest with
        | d :: rest2 => if d == ']' then some (.jarr [], rest2) else parseElems fuel rest []
        | [] => none
      else if c == 't' then
        match rest with
        | 'r' :: 'u' :: 'e' :: rest2 => some (.jbool true, rest2)
        | _ => none
      else if c == 'f' then
        match rest with
        | 'a' :: 'l' :: 's' :: 'e' :: rest2 => some (.jbool false, rest2)
        | _ => none
      else if c == 'n' then
        match rest with
        | 'u' :: 'l' :: 'l' :: rest2 => some (.jnull, rest2)
        | _ => none
      else parseNum (c :: rest)

/-- Parse the remaining `key : value` fields of a JSON object (a later
duplicate key overwrites the earlier value in place, as in JavaScript). -/
def parseFields : Nat → List Char → List (String × JValue) →
    Option (JValue × List Char)
  | 0, _, _ => none
  | fuel + 1, cs, acc =>
    match pSkipWs cs with
    | c :: rest =>
      if c == dquote then
        match parseStrBody (fuel + 1) rest [] with
        | some (k, rest2) =>
          match pSkipWs rest2 with
          | d :: rest3 =>
            if d == ':' then
              match parseVal fuel rest3 with
              | some (v, rest4) =>
                let acc2 := setField acc k v
                match pSkipWs rest4 with
                | e :: rest5 =>
                  if e == ',' then parseFields fuel rest5 acc2
                  else if e == rcurly then some (.jobj acc2, rest5)
                  else none
                | [] => none
              | none => none
            else none
          | [] => none
        | none => none
      else none
    | [] => none

/-- Parse the remaining elements of a JSON array. -/
def parseElems : Nat → List Char → List JValue → Option (JValue × List Char)
  | 0, _, _ => none
  | fuel + 1, cs, acc =>
    match parseVal fuel cs with
    | some (v, rest) =>
      match pSkipWs rest with
      | e :: rest2 =>
        if e == ',' then parseElems fuel rest2 (acc ++ [v])
        else if e == ']' then some (.jarr (acc ++ [v]), rest2)
        else none
      | [] => none
    | none => none

end

/-- Model of `JSON.parse`: `none` models a thrown `SyntaxError`. -/
def jsonParse (s : String) : Option JValue :=
  match parseVal (2 * s.data.length + 8) s.data with
  | some (v, rest) => if pSkipWs rest = [] then some v else none
  | none => none

/-! ### The repair step of `RagService.tryParseJson`
(`rag.service.ts` lines 536-575) -/

/-- A word character of the key-fixing regex (`[a-zA-Z0-9_]`). -/
def isWordChar (c : Char) : Bool := c.isAlphanum || c == '_'

/-- The first replace of the repair: after a brace or comma, a bare
identifier key is wrapped in double quotes and the spaces around it are
dropped. -/
def fixKeysGo : Nat → List Char → List Char
  | 0, cs => cs
  | _ + 1, [] => []
  | fuel + 1, c :: rest =>
    if c == lcurly || c == ',' then
      let afterWs := rest.dropWhile isWsChar
      let ident := afterWs.takeWhile isWordChar
      let afterIdent := afterWs.dropWhile isWordChar
      match ident, afterIdent.dropWhile isWsChar with
      | _ :: _, d :: rest2 =>
        if d == ':' then
          c :: dquote :: (ident ++ dquote :: ':' :: fixKeysGo fuel rest2)
        else c :: fixKeysGo fuel rest
      | _, _ => c :: fixKeysGo fuel rest
    else c :: fixKeysGo fuel rest

/-- The second replace of the repair: every single quote becomes a
double quote. -/
def sqToDq (cs : List Char) : List Char :=
  cs.map fun c => if c == squote then dquote else c

/-- The third replace of the repair: a backslash-escaped double quote
loses its backslash. -/
def unescQuote : List Char → List Char
  | [] => []
  | [c] => [c]
  | a :: b :: rest =>
    if a == bslash && b == dquote then dquote :: unescQuote rest
    else a :: unescQuote (b :: rest)

/-- The fourth replace of the repair: a doubled backslash before a
double quote collapses to a single one. -/
def unescDouble : List Char → List Char
  | a :: b :: c :: rest =>
    if a == bslash && b == bslash && c == dquote then
      bslash :: dquote :: unescDouble rest
    else a :: unescDouble (b :: c :: rest)
  | short => short

/-- Trim leading text before the first brace (when the string starts with
neither brace nor bracket) and trailing text after the last closing brace
or bracket, exactly as in the source (`substring` clamps a `-1` index to
`0`; the trailing cut needs the close position strictly inside the
string and past index `0`). -/
def fixBounds (cs : List Char) : List Char :=
  let cs1 :=
    if leadsWith [lcurly] cs || leadsWith ['['] cs then cs
    else jsSubstringFrom cs (jsIndexOfChar cs lcurly)
  let lastValid := max (jsLastIndexOfChar cs1 rcurly) (jsLastIndexOfChar cs1 ']')
  if lastValid > 0 ∧ lastValid < (cs1.length : Int) - 1 then
    cs1.take (lastValid.toNat + 1)
  else cs1

/-- The complete repair transform applied when the first `JSON.parse`
throws. -/
def fixJson (s : String) : String :=
  let cs := s.data
  let cs := fixKeysGo (cs.length + 1) cs
  let cs := sqToDq cs
  let cs := unescQuote cs
  let cs := unescDouble cs
  String.mk (fixBounds cs)

/-- Model of `RagService.tryParseJson`: parse, else repair and re-parse, else
return the original string; an empty (falsy) input yields `null`.
Never throws. -/
def tryParseJson (s : String) : JValue :=
  if s = "" then .jnull
  else
    match jsonParse s with
    | some v => v
    | none =>
      match jsonParse (fixJson s) with
      | some v => v
      | none => .jstr s

/-! ### `RagService.parsePostgresResults` (`rag.service.ts` lines 580-707) -/

/-- A canonical evidence record (`RagResult` in the source): content
text, URI-like source and an ordered metadata map. -/
structure RagResult where
  content : String
  source : String
  metadata : List (String × JValue)
deriving Repr

/-- Truthiness of an optional row field (absent or empty is falsy). -/
def strTruthy : Option String → Bool
  | some v => !(v == "")
  | none => false

/-- One row line split on the pipe delimiter into a key→string map,
each field split on the first colon-space (a falsy or blank key is
skipped; the remainder of the field is rejoined with colon-space). -/
def buildRowObj (line : String) : List (String × String) :=
  (jsSplit line " | ").foldl
    (fun ro field =>
      match jsSplit field ": " with
      | [] => ro
      | key :: valueParts =>
        if key = "" ∨ jsTrim key = "" then ro
        else setField ro (jsTrim key) (String.intercalate ": " valueParts))
    []

/-- One optional content line: label, value and newline, emitted only
for a truthy value. -/
def optLine (label : String) (o : Option String) : String :=
  match o with
  | some v => if v == "" then "" else label ++ v ++ "\n"
  | none => ""

/-- The `customer` / `resolution` JSON-field handler: a parsed object is
expanded into content lines and stored in the metadata; anything else
keeps the raw string under the key `raw`. -/
def handleJsonField (fieldName heading inline : String)
    (ro : List (String × String)) (st : String × List (String × JValue)) :
    String × List (String × JValue) :=
  match ro.lookup fieldName with
  | none => st
  | some cv =>
    if cv == "" then st
    else
      let cd := tryParseJson cv
      if isObjectType cd then
        (st.1 ++ heading ++
            String.join ((jsEntries cd).map fun kv =>
              "- " ++ kv.1 ++ ": " ++ jsToString kv.2 ++ "\n") ++ "\n",
          setField st.2 fieldName cd)
      else
        (st.1 ++ inline ++ cv ++ "\n",
          setField st.2 fieldName (.jobj [("raw", .jstr cv)]))

/-- The per-image metadata entry built from one element of a parsed
`images` list. -/
def imageEntry (idx : Nat) (img : JValue) : JValue :=
  .jobj
    [("index", .jnum ((idx : Int) + 1) 0),
     ("description",
       if jsTruthy (jsGet img "description") then jsGet img "description"
       else .jstr "No description"),
     ("s3_key", jsGet img "s3_key"),
     ("uploaded_at", jsGet img "uploaded_at"),
     ("presigned_url", jsGet img "presigned_url"),
     ("exists", jsGet img "exists")]

/-- The content lines printed for one image. -/
def imageContentLine (idx : Nat) (img : JValue) : String :=
  "  Image " ++ Nat.repr (idx + 1) ++ ": " ++
    jsToString (if jsTruthy (jsGet img "description") then jsGet img "description"
      else .jstr "No description") ++ "\n" ++
  (if jsTruthy (jsGet img "s3_key") then
      "    Path: " ++ jsToString (jsGet img "s3_key") ++ "\n" ++
        "    Storage: Available in S3 bucket\n"
    else "")

/-- The `metadata` JSON-field handler, with the special `images`
expansion.  Note that when the repaired parse still fails (the value is
not an object) nothing at all is added: the raw string is dropped. -/
def handleMetaField (ro : List (String × String))
    (st : String × List (String × JValue)) :
    String × List (String × JValue) :=
  match ro.lookup "metadata" with
  | none => st
  | some mv =>
    if mv == "" then st
    else
      let md := tryParseJson mv
      if isObjectType md then
        let c1 := st.1 ++ "Metadata Details:\n"
        let images := jsGet md "images"
        let st2 :=
          match images with
          | .jarr imgs =>
            (c1 ++ "- images: " ++ Nat.repr imgs.length ++ " image(s)\n" ++
                String.join (imgs.enum.map fun (p : Nat × JValue) =>
                  imageContentLine p.1 p.2),
              setField st.2 "images"
                (.jarr (imgs.enum.map fun (p : Nat × JValue) => imageEntry p.1 p.2)))
          | _ => (c1, st.2)
        let others := (jsEntries md).filter fun kv => kv.1 ≠ "images"
        (st2.1 ++
            String.join (others.map fun kv =>
              "- " ++ kv.1 ++ ": " ++ jsonStringify kv.2 ++ "\n") ++ "\n",
          others.foldl (fun m kv => setField m kv.1 kv.2) st2.2)
      else st

/-- Build one `RagResult` from a parsed row map; a row without a truthy
`ticket_id` yields nothing. -/
def buildRecord (ro : List (String × String)) : Option RagResult :=
  if !strTruthy (ro.lookup "ticket_id") then none
  else
    let tid := (ro.lookup "ticket_id").getD ""
    let content :=
      optLine "Subject: " (ro.lookup "subject") ++
      optLine "Description: " (ro.lookup "description") ++
      optLine "Similarity Score: " (ro.lookup "similarity")
    let metadata : List (String × JValue) :=
      [("ticketId", .jstr tid),
       ("dataSource", .jstr "postgres"),
       ("tableName", .jstr "support_tickets"),
       ("similarity",
         if strTruthy (ro.lookup "similarity") then .jstr ((ro.lookup "similarity").getD "")
         else .jnull),
       ("recordFields", .jarr (((ro.map Prod.fst).filter (· ≠ "ticket_id")).map .jstr))]
    let st := handleJsonField "customer" "Customer Details:\n" "Customer: " ro
      (content, metadata)
    let st := handleJsonField "resolution" "Resolution Details:\n" "Resolution: " ro st
    let st := handleMetaField ro st
    some ⟨st.1, "postgres:support_tickets:" ++ tid, st.2⟩

/-- Model of `RagService.parsePostgresResults`: reject responses without a
`Results:` marker, drop the first two lines, and build one record per
non-blank row that carries a primary key. -/
def parsePostgresResults (queryResponse : String) : List RagResult :=
  if queryResponse = "" ∨ !(jsIncludes queryResponse "Results:") then []
  else
    ((jsSplit queryResponse "\n").drop 2).filterMap fun line =>
      if jsTrim line = "" then none
      else buildRecord (buildRowObj line)

/-- The text-phase tagging `result.metadata.searchMethod = text_search`
(`rag.service.ts` lines 477-480). -/
def tagTextSearch (r : RagResult) : RagResult :=
  { r with metadata := setField r.metadata "searchMethod" (.jstr "text_search") }

/-! ### `McpClientService` (`mcp-client.service.ts`) -/

/-- A configured MCP backend (`app.mcp` entry in `env.config.ts`):
endpoint plus the `enabled` flag. -/
structure BackendConfig where
  url : String
  enabled : Bool
deriving Repr, DecidableEq

/-- Model of `McpClientService.onModuleInit` (lines 26-48): the configured server
map `app.mcp` is read and handed to `new MultiServerMCPClient(mcpServers)`
unchanged; the `enabled` flag is consulted only by the startup log line,
never to filter the list. -/
def clientBackends (mcpServers : List (String × BackendConfig)) :
    List (String × BackendConfig) := mcpServers

/-- The backends whose connection and catalog fetch the registry attempts:
`connectWithRetry` and `refreshTools` call `this.client.getTools()`, which
addresses every server held by the client built in `onModuleInit`. -/
def attemptedBackends (mcpServers : List (String × BackendConfig)) : List String :=
  (clientBackends mcpServers).map Prod.fst

/-- Outcome of one `client.getTools()` call: a catalog (possibly empty)
or a thrown error. -/
inductive FetchOutcome where
  | ok : List String → FetchOutcome
  | thrown : String → FetchOutcome
deriving Repr, DecidableEq

/-- The mutable registry state: current catalog (tool names) and the
`isInitialized` flag. -/
structure RegistryState where
  tools : List String
  isInitialized : Bool
deriving Repr, DecidableEq

/-- Model of `McpClientService.refreshTools` (lines 156-169): a successful fetch
with a non-empty catalog replaces the stored catalog wholesale and marks
the client initialized; an empty catalog or a thrown fetch leaves the
state untouched. -/
def refreshTools (s : RegistryState) (fetch : FetchOutcome) : RegistryState :=
  match fetch with
  | .ok ts => if ts.length > 0 then { tools := ts, isInitialized := true } else s
  | .thrown _ => s

/-- The backoff update of `connectWithRetry` (line 111):
`retryDelay = Math.min(retryDelay * 1.5, 20000)`. -/
def backoff (d : ℚ) : ℚ := min (d * (3 / 2)) 20000

/-- The retry loop of `McpClientService.connectWithRetry` (lines 72-124),
instrumented to return the list of sleep delays in order plus the final
`isInitialized` flag.  `outcome n` is the result of the fetch on attempt
`n` (1-based), `jitter n` the value of `Math.random() * 1000` drawn on
attempt `n`.  A successful non-empty fetch breaks out before sleeping; an
empty fetch sleeps the unchanged delay; a thrown fetch first applies the
capped backoff and adds the jitter (the sum is carried into later
attempts). -/
def connectLoop (outcome : ℕ → FetchOutcome) (jitter : ℕ → ℚ) :
    ℕ → ℕ → ℚ → List ℚ × Bool
  | 0, _, _ => ([], false)
  | fuel + 1, n, d =>
    match outcome n with
    | .ok (_ :: _) => ([], true)
    | .ok [] =>
      let r := connectLoop outcome jitter fuel (n + 1) d
      (d :: r.1, r.2)
    | .thrown _ =>
      let d2 := backoff d + jitter n
      let r := connectLoop outcome jitter fuel (n + 1) d2
      (d2 :: r.1, r.2)

/-- The sleep delays of one `connectWithRetry` run
(`maxAttempts = 15`, `initialRetryDelay = 2000`). -/
def connectDelays (outcome : ℕ → FetchOutcome) (jitter : ℕ → ℚ) : List ℚ :=
  (connectLoop outcome jitter 15 1 2000).1

/-- Case-insensitive substring test `t.name.toLowerCase().includes(sub)`. -/
def lowerIncludes (t sub : String) : Bool := jsIncludes (jsLower t) sub

/-- The category-hint heuristic of `getToolByName` (lines 233-254): an
`if`/`else if` chain keyed on substrings of the lowercased requested
name. -/
def heuristicFind (tools : List String) (name : String) : Option String :=
  let n := jsLower name
  if jsIncludes n "bucket" then
    tools.find? fun t => lowerIncludes t "bucket" || lowerIncludes t "list"
  else if jsIncludes n "query" then
    tools.find? fun t => lowerIncludes t "query" || lowerIncludes t "sql"
  else if jsIncludes n "object" then
    tools.find? fun t => lowerIncludes t "object" || lowerIncludes t "content"
  else none

/-- The tool name `t` is a backend-prefixed alias of `name`. -/
def isAliasOf (name t : String) : Prop :=
  t = "mcp__s3__" ++ name ∨ t = "mcp__postgres__" ++ name

instance (name t : String) : Decidable (isAliasOf name t) := by
  unfold isAliasOf; infer_instance

/-- Model of `McpClientService.getToolByName` (lines 221-258): exact name first,
then the `mcp__s3__`/`mcp__postgres__` aliases, then (for a truthy name)
the category heuristic. -/
def getToolByName (tools : List String) (name : String) : Option String :=
  match tools.find? (fun t => t = name) with
  | some t => some t
  | none =>
    match tools.find? (fun t => isAliasOf name t) with
    | some t => some t
    | none => if name ≠ "" then heuristicFind tools name else none

/-! ### `RagService.searchPostgres` (`rag.service.ts` lines 313-531) -/

/-- The tool invocations and provider calls `searchPostgres` can make,
in source order: the `pg_extension` probe, the embedding call, the
vector-similarity query, the `information_schema` table probe, the
ILIKE text query, the `describe_table` call and the sample-row query. -/
inductive PgAction where
  | checkVector
  | genEmbedding
  | vectorQuery
  | checkTable
  | textQuery
  | describeTable
  | sampleQuery
deriving Repr, DecidableEq

/-- Environment of one `searchPostgres` run: the registry catalog and the
outcome of each potential call (`Except.error` models a rejected
invocation). -/
structure PgEnv where
  tools : List String
  checkVectorResp : Except String String
  embedResp : Except String (List Int)
  vectorResp : Except String String
  tableExistsResp : Except String String
  textResp : Except String String
  describeResp : Except String String
  sampleResp : Except String String

/-- The vector-extension test on the probe response (lines 345-352):
`hasVector` stays false for a falsy response, otherwise requires a
`count` marker and forbids the failure markers. -/
def hasVectorCheck (resp : String) : Bool :=
  if resp == "" then false
  else
    !(jsIncludes resp "No results found") && !(jsIncludes resp "Error") &&
      jsIncludes resp "count" && !(jsIncludes resp "count: 0")

/-- The single-quote character as a string. -/
def sqStr : String := String.mk [squote]

/-- The schema-fallback record (lines 509-518). -/
def schemaRecord (tableStructure sampleTicket : String) : RagResult :=
  { content := "No exact matches found, but here" ++ sqStr ++
      "s the support_tickets table structure:\n" ++ tableStructure ++
      "\n\nSample ticket data:\n" ++ sampleTicket
    source := "postgres:schema:support_tickets"
    metadata :=
      [("type", .jstr "schema"),
       ("table", .jstr "support_tickets"),
       ("schema", .jstr "public"),
       ("searchMethod", .jstr "fallback")] }

/-- The vector phase (lines 333-407): `some rs` is the early return taken
when the parsed vector hits are non-empty; `none` falls through to the
text phase with an empty result list.  The second component is the call
trace. -/
def vectorPhase (env : PgEnv) : Option (List RagResult) × List PgAction :=
  match env.checkVectorResp with
  | .error _ => (none, [.checkVector])
  | .ok resp =>
    if hasVectorCheck resp then
      match env.embedResp with
      | .error _ => (none, [.checkVector, .genEmbedding])
      | .ok emb =>
        if emb.isEmpty then (none, [.checkVector, .genEmbedding])
        else
          match env.vectorResp with
          | .error _ => (none, [.checkVector, .genEmbedding, .vectorQuery])
          | .ok vr =>
            if !(vr == "") && !(jsIncludes vr "Error") then
              let parsed := parsePostgresResults vr
              if parsed.length > 0 then
                (some parsed, [.checkVector, .genEmbedding, .vectorQuery])
              else (none, [.checkVector, .genEmbedding, .vectorQuery])
            else (none, [.checkVector, .genEmbedding, .vectorQuery])
    else (none, [.checkVector])

/-- The text phase (lines 410-488): results (already tagged) and trace. -/
def textPhase (env : PgEnv) : List RagResult × List PgAction :=
  match env.tableExistsResp with
  | .error _ => ([], [.checkTable])
  | .ok te =>
    if te == "" || jsIncludes te "exists: f" then ([], [.checkTable])
    else
      match env.textResp with
      | .error _ => ([], [.checkTable, .textQuery])
      | .ok qr =>
        if !(qr == "") && jsIncludes qr "Results:" then
          ((parsePostgresResults qr).map tagTextSearch, [.checkTable, .textQuery])
        else ([], [.checkTable, .textQuery])

/-- The schema fallback (lines 491-525), reached only with an empty
result list. -/
def fallbackPhase (env : PgEnv) : List RagResult × List PgAction :=
  match getToolByName env.tools "describe_table" with
  | none => ([], [])
  | some _ =>
    match env.describeResp with
    | .error _ => ([], [.describeTable])
    | .ok ts =>
      match env.sampleResp with
      | .error _ => ([], [.describeTable, .sampleQuery])
      | .ok st => ([schemaRecord ts st], [.describeTable, .sampleQuery])

/-- Model of `RagService.searchPostgres`: resolve the `query` tool (a failed
resolution throws into the outer catch, yielding zero results), then the
vector phase with its early return, then the text phase, then — only for
an empty result list — the schema fallback.  Returns the evidence records
plus the call trace.  The query string only shapes the SQL text inside
the traced calls, whose outcomes the environment fixes. -/
def searchPostgres (env : PgEnv) (_query : String) :
    List RagResult × List PgAction :=
  match getToolByName env.tools "query" with
  | none => ([], [])
  | some _ =>
    match vectorPhase env with
    | (some rs, tr) => (rs, tr)
    | (none, tr) =>
      let t := textPhase env
      let results := t.1
      let trace := tr ++ t.2
      if results.isEmpty then
        let f := fallbackPhase env
        (results ++ f.1, trace ++ f.2)
      else (results, trace)

/-! ### `RagService.retrieveRelevantInfo` (`rag.service.ts` lines 32-108) -/

/-- The per-query result bundle (`RagQueryResults` in the source). -/
structure RagQueryResults where
  query : String
  combinedResults : List RagResult
  s3Results : List RagResult
  postgresResults : List RagResult
deriving Repr

/-- Environment of one orchestrator run: outcome of `getTools()` and of
the two search strategies (`Except.error` models a rejected promise). -/
structure OrchestratorEnv where
  toolsOutcome : Except String (List String)
  s3Outcome : Except String (List RagResult)
  pgOutcome : Except String (List RagResult)

/-- The body of `retrieveRelevantInfo` without its outer catch: fetch the
tool list (throwing when it is missing or empty), then run each strategy
under its own try/catch — a thrown strategy contributes zero results. -/
def retrieveRelevantInfoEx (env : OrchestratorEnv) (query : String) :
    Except String RagQueryResults :=
  match env.toolsOutcome with
  | .error e => .error e
  | .ok tools =>
    if tools.isEmpty then .error "No tools available"
    else
      let s3Results := match env.s3Outcome with
        | .ok rs => rs
        | .error _ => []
      let postgresResults := match env.pgOutcome with
        | .ok rs => rs
        | .error _ => []
      .ok
        { query := query
          combinedResults := s3Results ++ postgresResults
          s3Results := s3Results
          postgresResults := postgresResults }

/-- Model of `RagService.retrieveRelevantInfo`: the outer catch turns any escaped
error into an empty bundle for the same query. -/
def retrieveRelevantInfo (env : OrchestratorEnv) (query : String) :
    RagQueryResults :=
  match retrieveRelevantInfoEx env query with
  | .ok r => r
  | .error _ =>
    { query := query, combinedResults := [], s3Results := [], postgresResults := [] }

/-! ### `RagService.formatRagContext` (`rag.service.ts` lines 712-777) -/

/-- Metadata lookup `result.metadata.key` (a missing key is
`undefined`). -/
def mGet (m : List (String × JValue)) (k : String) : JValue :=
  match m.lookup k with
  | some v => v
  | none => .jundefined

/-- JavaScript `.length` of a value (defined for arrays, `undefined`
otherwise). -/
def jsLen : JValue → JValue
  | .jarr xs => .jnum (xs.length : Int) 0
  | _ => .jundefined

/-- One `- key: value` line of the general metadata branch, printed only
for truthy non-object values. -/
def metaLine (kv : String × JValue) : String :=
  if jsTruthy kv.2 && !isObjectType kv.2 then
    "- " ++ kv.1 ++ ": " ++ jsToString kv.2 ++ "\n"
  else ""

/-- One image-retrieval instruction line. -/
def imageInstr (img : JValue) : String :=
  if jsTruthy (jsGet img "s3_key") then
    "  * get_object_content tool with bucket=\"xyz-support-images\" and key=\"" ++
      jsToString (jsGet img "s3_key") ++ "\"\n"
  else ""

/-- The section `formatRagContext` prints for record number `i` (0-based;
the heading shows `i + 1`).  Calling `.forEach` on a truthy non-array
`metadata.images` value is a thrown `TypeError`, modelled as
`Except.error`. -/
def sectionFor (i : Nat) (r : RagResult) : Except String String :=
  let base := "#### Source " ++ Nat.repr (i + 1) ++ ": " ++ r.source ++ "\n" ++
    r.content ++ "\n\n"
  if r.metadata.isEmpty then .ok base
  else
    let mb : Except String String :=
      if jsBeginsWith r.source "s3://" then
        .ok ("- Type: S3 Object\n" ++
          (if jsTruthy (mGet r.metadata "bucket") then
              "- Bucket: " ++ jsToString (mGet r.metadata "bucket") ++ "\n"
            else "") ++
          (if jsTruthy (mGet r.metadata "key") then
              "- Key: " ++ jsToString (mGet r.metadata "key") ++ "\n"
            else "") ++
          (if jsTruthy (mGet r.metadata "contentType") then
              "- Content Type: " ++ jsToString (mGet r.metadata "contentType") ++ "\n"
            else ""))
      else if jsIncludes r.source "postgres:" && jsTruthy (mGet r.metadata "images") then
        match mGet r.metadata "images" with
        | .jarr imgs =>
          .ok ("- Type: Database Record with Images\n" ++
            "- Images Available: " ++ jsToString (jsLen (.jarr imgs)) ++ "\n" ++
            "- **Retrieval Instructions**: To view these images, use the S3 tools with:\n" ++
            String.join (imgs.map imageInstr))
        | _ => .error "TypeError: images.forEach is not a function"
      else .ok (String.join (r.metadata.map metaLine))
    match mb with
    | .ok block => .ok (base ++ "**Source Metadata:**\n" ++ block ++ "\n")
    | .error e => .error e

/-- The fixed closing instruction block (lines 767-774). -/
def closingBlock : String :=
  "### Retrieval Instructions for the Agent:\n" ++
  "- For S3 documents, you can use the S3 tools (list_buckets, search_objects, get_object_content) to fetch additional content\n" ++
  "- For Postgres data, you can use the Postgres tools (query, describe_table) to fetch additional data\n" ++
  "- If you need to display an image, fetch it from S3 using the get_object_content tool with the provided keys\n" ++
  "- Use the metadata in your response to correctly attribute sources and provide accurate information\n" ++
  "\nUse these retrieved documents to help answer the user" ++ sqStr ++
  "s question completely and accurately.\n"

/-- The indexed accumulation loop of `formatRagContext`. -/
def formatLoop : Nat → List RagResult → String → Except String String
  | _, [], acc => .ok acc
  | i, r :: rest, acc =>
    match sectionFor i r with
    | .ok s => formatLoop (i + 1) rest (acc ++ s)
    | .error e => .error e

/-- Model of `RagService.formatRagContext`: empty (or null) input yields the empty
string, otherwise the header, one section per record and the closing
block. -/
def formatRagContext (results : List RagResult) : Except String String :=
  if results.isEmpty then .ok ""
  else
    match formatLoop 0 results "### Relevant Information:\n\n" with
    | .ok acc => .ok (acc ++ closingBlock)
    | .error e => .error e

/-- A record whose `metadata.images` value cannot make `.forEach` throw:
either it is an array or the images branch is not taken. -/
def imagesOk (r : RagResult) : Bool :=
  match mGet r.metadata "images" with
  | .jarr _ => true
  | v => !(jsIncludes r.source "postgres:" && jsTruthy v)

/-! ### Deep search for a string inside a value (used to state that a raw
field value was discarded). -/

mutual

/-- Does the string `s` occur as a `jstr` leaf anywhere inside `v`? -/
def jvalMentions (s : String) : JValue → Bool
  | .jstr t => t == s
  | .jobj fs => fieldsMention s fs
  | .jarr xs => elemsMention s xs
  | _ => false

/-- Extend `jvalMentions` over object fields. -/
def fieldsMention (s : String) : List (String × JValue) → Bool
  | [] => false
  | (_, v) :: rest => jvalMentions s v || fieldsMention s rest

/-- Extend `jvalMentions` over array elements. -/
def elemsMention (s : String) : List JValue → Bool
  | [] => false
  | v :: rest => jvalMentions s v || elemsMention s rest

end

/-! ### Concrete inputs used by counterexamples and witnesses -/

/-- A malformed JSON-like field value with both documented quirks — an
unquoted identifier key and single quotes — that the repair step cannot
fix (the inner apostrophe of the contraction leaves an unbalanced quote after the
global single-to-double-quote replacement). -/
def c7raw : String :=
  String.mk [lcurly] ++ "note: " ++ sqStr ++ "it" ++ sqStr ++ "s fine" ++
    sqStr ++ String.mk [rcurly]

/-- A relational query response whose only row carries `c7raw` in its
`metadata` column. -/
def c7resp : String := "Results:\n--------\nticket_id: T1 | metadata: " ++ c7raw

/-- A concrete environment for C8: no vector extension, a text query
returning one `KALI-3001` row. -/
def c8env : PgEnv :=
  ⟨["query", "describe_table"], .ok "count: 0", .ok [], .ok "",
   .ok "exists: t",
   .ok "Results:\n--------\nticket_id: KALI-3001 | subject: Login fails",
   .ok "cols", .ok "row"⟩

/-- The backend configuration of `env.config.ts` with the object store
disabled. -/
def c6cfg : List (String × BackendConfig) :=
  [("s3", { url := "http://localhost:8001/sse", enabled := false }),
   ("postgres", { url := "http://localhost:8002/sse", enabled := true })]

/-- The per-record section texts of `formatRagContext`, starting at
record index `i` (an erroring section contributes a placeholder, a case
a case excluded by the hypothesis of the structure theorem). -/
def sectionTextsFrom : Nat → List RagResult → List String
  | _, [] => []
  | i, r :: rest =>
    (match sectionFor i r with
      | .ok s => s
      | .error _ => "") :: sectionTextsFrom (i + 1) rest

/-! ## Supporting lemmas -/

theorem lookup_setField_self {α : Type} (m : List (String × α)) (k : String)
    (v : α) : (setField m k v).lookup k = some v := by
  induction m with
  | nil => simp [setField]
  | cons p rest ih =>
    obtain ⟨k0, v0⟩ := p
    by_cases h : k0 = k
    · subst h; simp [setField]
    · have hb : (k == k0) = false := by simp [beq_iff_eq]; exact Ne.symm h
      simp [setField, h, List.lookup, hb, ih]

theorem lookup_setField_ne {α : Type} (m : List (String × α)) (k k' : String)
    (v : α) (h : k ≠ k') : (setField m k' v).lookup k = m.lookup k := by
  have hb : (k == k') = false := by simp [beq_iff_eq]; exact h
  induction m with
  | nil => simp [setField, List.lookup, hb]
  | cons p rest ih =>
    obtain ⟨k0, v0⟩ := p
    by_cases h0 : k0 = k'
    · subst h0; simp [setField, List.lookup, hb]
    · by_cases h1 : k0 = k
      · subst h1; simp [setField, h0, List.lookup]
      · have hb1 : (k == k0) = false := by simp [beq_iff_eq]; exact Ne.symm h1
        simp [setField, h0, List.lookup, hb1, ih]

theorem leadsWith_append (a b : List Char) : leadsWith a (a ++ b) = true := by
  induction a with
  | nil => simp [leadsWith]
  | cons c cs ih => simp [leadsWith, ih]

/-! ## Claim theorems -/

/-- C2: for every environment and query string, `retrieveRelevantInfo`
returns a bundle (it is a total function of the modelled outcomes, so no
exception escapes), the bundle carries the query itself, and the fused
list is exactly the object-store results followed by the relational
results — even when the tool list is missing or empty or when both
backends fail. -/
theorem rag_always_returns_bundle (env : OrchestratorEnv) (q : String) :
    (retrieveRelevantInfo env q).query = q ∧
    (retrieveRelevantInfo env q).combinedResults =
      (retrieveRelevantInfo env q).s3Results ++
        (retrieveRelevantInfo env q).postgresResults := by
  unfold retrieveRelevantInfo retrieveRelevantInfoEx
  cases env.toolsOutcome with
  | error e => simp
  | ok tools =>
    by_cases h : tools.isEmpty <;> simp [h]

/-- C1: under a live tool catalog, a thrown relational-store strategy
leaves the fused list equal to the collected object-store hits, and a
thrown object-store strategy leaves the fused list equal to the
relational hits — neither exception stops the other branch or the query
itself. -/
theorem rag_partial_failure (env : OrchestratorEnv) (q : String)
    (ts : List String) (hts : env.toolsOutcome = .ok ts) (hne : ts ≠ []) :
    (∀ rs e, env.s3Outcome = .ok rs → env.pgOutcome = .error e →
      retrieveRelevantInfo env q =
        { query := q, combinedResults := rs, s3Results := rs, postgresResults := [] }) ∧
    (∀ ps e, env.s3Outcome = .error e → env.pgOutcome = .ok ps →
      retrieveRelevantInfo env q =
        { query := q, combinedResults := ps, s3Results := [], postgresResults := ps }) := by
  have hempty : ts.isEmpty = false := by
    cases ts with
    | nil => exact absurd rfl hne
    | cons a as => rfl
  constructor
  · intro rs e hs3 hpg
    unfold retrieveRelevantInfo retrieveRelevantInfoEx
    rw [hts, hs3, hpg]
    simp [hempty]
  · intro ps e hs3 hpg
    unfold retrieveRelevantInfo retrieveRelevantInfoEx
    rw [hts, hs3, hpg]
    simp [hempty]

/-- C9: a catalog refresh is all-or-nothing: a successful non-empty fetch
replaces the stored catalog wholesale (and marks the registry
initialized); an empty fetch or a thrown fetch leaves the registry state
exactly as it was. -/
theorem refresh_wholesale_or_untouched (s : RegistryState) (f : FetchOutcome) :
    (∀ ts, f = .ok ts → ts ≠ [] →
      refreshTools s f = { tools := ts, isInitialized := true }) ∧
    (f = .ok [] → refreshTools s f = s) ∧
    (∀ e, f = .thrown e → refreshTools s f = s) := by
  refine ⟨?_, ?_, ?_⟩
  · rintro ts rfl hne
    simp [refreshTools, List.length_pos.mpr hne]
  · rintro rfl
    simp [refreshTools]
  · rintro e rfl
    simp [refreshTools]

/-- C6: the registry code does not honour `enabled=false` — the s3
backend of `c6cfg` is disabled, yet it is part of the server list handed
to the connection client in `onModuleInit` and hence of the backends
whose connection and catalog fetch are attempted. -/
theorem disabled_backend_still_attempted :
    ("s3", ({ url := "http://localhost:8001/sse", enabled := false } : BackendConfig)) ∈
        clientBackends c6cfg ∧
    "s3" ∈ attemptedBackends c6cfg := by
  constructor <;> simp [clientBackends, attemptedBackends, c6cfg]

/-- Witness for C1: with one live tool, one collected object-store hit
and a thrown relational strategy, the fused list is exactly that hit. -/
theorem rag_partial_failure_witness :
    retrieveRelevantInfo
      ⟨.ok ["query"], .ok [⟨"doc", "s3://b/k", []⟩], .error "boom"⟩ "q" =
      { query := "q", combinedResults := [⟨"doc", "s3://b/k", []⟩],
        s3Results := [⟨"doc", "s3://b/k", []⟩], postgresResults := [] } :=
  (rag_partial_failure
      ⟨.ok ["query"], .ok [⟨"doc", "s3://b/k", []⟩], .error "boom"⟩
      "q" ["query"] rfl (by decide)).1
    [⟨"doc", "s3://b/k", []⟩] "boom" rfl rfl

/-- Witness for C9: a successful two-tool fetch replaces a one-tool
catalog wholesale. -/
theorem refresh_wholesale_witness :
    refreshTools ⟨["old"], false⟩ (.ok ["a", "b"]) = ⟨["a", "b"], true⟩ :=
  (refresh_wholesale_or_untouched ⟨["old"], false⟩ (.ok ["a", "b"])).1
    ["a", "b"] rfl (by decide)

/-- C5: name resolution is deterministic and layered — an exact match is
always returned; failing that, a present backend-prefixed alias is
returned; only when both fail is the category heuristic consulted, and a
query with no exact, alias or heuristic match resolves to none. -/
theorem resolve_layering (tools : List String) (name : String) :
    (name ∈ tools → getToolByName tools name = some name) ∧
    (name ∉ tools → ∀ t ∈ tools, isAliasOf name t →
      ∃ u, getToolByName tools name = some u ∧ isAliasOf name u ∧ u ∈ tools) ∧
    (name ∉ tools → (∀ t ∈ tools, ¬ isAliasOf name t) →
      getToolByName tools name =
        if name ≠ "" then heuristicFind tools name else none) ∧
    (name ∉ tools → (∀ t ∈ tools, ¬ isAliasOf name t) →
      heuristicFind tools name = none → getToolByName tools name = none) := by
  refine ⟨?_, ?_, ?_, ?_⟩
  · intro hmem
    have hsome : (tools.find? (fun t => t = name)).isSome := by
      rw [List.find?_isSome]
      exact ⟨name, hmem, by simp⟩
    obtain ⟨u, hu⟩ := Option.isSome_iff_exists.mp hsome
    have : u = name := by simpa using List.find?_some hu
    unfold getToolByName
    rw [hu, this]
  · intro hmem t ht halias
    have hnone : tools.find? (fun t => t = name) = none := by
      rw [List.find?_eq_none]
      intro x hx
      simp only [decide_eq_true_eq]
      rintro rfl
      exact hmem hx
    have hsome : (tools.find? (fun t => isAliasOf name t)).isSome := by
      rw [List.find?_isSome]
      exact ⟨t, ht, by simpa using halias⟩
    obtain ⟨u, hu⟩ := Option.isSome_iff_exists.mp hsome
    refine ⟨u, ?_, by simpa using List.find?_some hu,
      List.mem_of_find?_eq_some hu⟩
    unfold getToolByName
    rw [hnone, hu]
  · intro hmem hal
    have hnone : tools.find? (fun t => t = name) = none := by
      rw [List.find?_eq_none]
      intro x hx
      simp only [decide_eq_true_eq]
      rintro rfl
      exact hmem hx
    have hnone2 : tools.find? (fun t => isAliasOf name t) = none := by
      rw [List.find?_eq_none]
      intro x hx
      simpa using hal x hx
    unfold getToolByName
    rw [hnone, hnone2]
  · intro hmem hal hh
    have hnone : tools.find? (fun t => t = name) = none := by
      rw [List.find?_eq_none]
      intro x hx
      simp only [decide_eq_true_eq]
      rintro rfl
      exact hmem hx
    have hnone2 : tools.find? (fun t => isAliasOf name t) = none := by
      rw [List.find?_eq_none]
      intro x hx
      simpa using hal x hx
    unfold getToolByName
    rw [hnone, hnone2, hh]
    simp

/-- Witness for C5: the exact layer at a two-tool catalog. -/
theorem resolve_layering_witness :
    getToolByName ["list_buckets", "query"] "query" = some "query" :=
  (resolve_layering ["list_buckets", "query"] "query").1 (by simp)

/-- C3: when the vector phase runs (query tool resolved, vector extension
detected, embedding produced, similarity query answered without an error
marker) and parses at least one record, `searchPostgres` returns exactly
those records and its call trace stops after the vector query — the text
phase (and the schema fallback) are never executed. -/
theorem postgres_vector_early_return (env : PgEnv) (q : String)
    (t cv vr : String) (emb : List Int)
    (hq : getToolByName env.tools "query" = some t)
    (hcv : env.checkVectorResp = .ok cv)
    (hhas : hasVectorCheck cv = true)
    (hemb : env.embedResp = .ok emb) (hembne : emb ≠ [])
    (hvr : env.vectorResp = .ok vr) (hvrne : vr ≠ "")
    (herr : jsIncludes vr "Error" = false)
    (hparsed : parsePostgresResults vr ≠ []) :
    searchPostgres env q =
      (parsePostgresResults vr,
        [PgAction.checkVector, PgAction.genEmbedding, PgAction.vectorQuery]) ∧
    PgAction.textQuery ∉ (searchPostgres env q).2 := by
  have hvp : vectorPhase env =
      (some (parsePostgresResults vr),
        [PgAction.checkVector, PgAction.genEmbedding, PgAction.vectorQuery]) := by
    unfold vectorPhase
    rw [hcv]
    have hie : emb.isEmpty = false := by
      cases emb with
      | nil => exact absurd rfl hembne
      | cons a as => rfl
    have h1 : (vr == "") = false := by simp [beq_iff_eq]; exact hvrne
    rw [hemb, hvr]
    simp [hhas, hie, h1, herr, List.length_pos.mpr hparsed]
  have hsp : searchPostgres env q =
      (parsePostgresResults vr,
        [PgAction.checkVector, PgAction.genEmbedding, PgAction.vectorQuery]) := by
    unfold searchPostgres
    rw [hq, hvp]
  exact ⟨hsp, by rw [hsp]; simp⟩

/-- Witness for C3 at a concrete environment whose vector query parses
one record: the text query is absent from the trace. -/
theorem postgres_vector_early_return_witness :
    searchPostgres
        ⟨["query", "describe_table"], .ok "count: 1", .ok [1],
          .ok "Results:\n--------\nticket_id: V1 | subject: S",
          .ok "exists: t", .ok "Results:", .ok "c", .ok "r"⟩ "q" =
      (parsePostgresResults "Results:\n--------\nticket_id: V1 | subject: S",
        [PgAction.checkVector, PgAction.genEmbedding, PgAction.vectorQuery]) :=
  (postgres_vector_early_return
      ⟨["query", "describe_table"], .ok "count: 1", .ok [1],
        .ok "Results:\n--------\nticket_id: V1 | subject: S",
        .ok "exists: t", .ok "Results:", .ok "c", .ok "r"⟩
      "q" "query" "count: 1" "Results:\n--------\nticket_id: V1 | subject: S"
      [1] rfl rfl rfl rfl (by decide) rfl (by decide) (by rfl)
      (List.length_pos.mp (by
        rw [show (parsePostgresResults
          "Results:\n--------\nticket_id: V1 | subject: S").length = 1 from rfl]
        exact Nat.one_pos))).1

/-- C8 (amended): when the vector phase yields nothing and the text phase
parses a non-empty result set, `searchPostgres` returns exactly the
parsed records tagged via `tagTextSearch`, and every returned record
carries `searchMethod = "text_search"` (the source string, not the
label `text` used by the spec) in its metadata. -/
theorem text_phase_tagging (env : PgEnv) (q : String) (t cv te qr : String)
    (hq : getToolByName env.tools "query" = some t)
    (hcv : env.checkVectorResp = .ok cv) (hhas : hasVectorCheck cv = false)
    (hte : env.tableExistsResp = .ok te) (htene : te ≠ "")
    (hexf : jsIncludes te "exists: f" = false)
    (hqr : env.textResp = .ok qr) (hqrne : qr ≠ "")
    (hres : jsIncludes qr "Results:" = true)
    (hparsed : parsePostgresResults qr ≠ []) :
    (searchPostgres env q).1 = (parsePostgresResults qr).map tagTextSearch ∧
    ∀ r ∈ (searchPostgres env q).1,
      r.metadata.lookup "searchMethod" = some (.jstr "text_search") := by
  have hvp : vectorPhase env = (none, [PgAction.checkVector]) := by
    unfold vectorPhase
    rw [hcv]
    simp [hhas]
  have htp : textPhase env =
      ((parsePostgresResults qr).map tagTextSearch,
        [PgAction.checkTable, PgAction.textQuery]) := by
    unfold textPhase
    rw [hte]
    have h1 : (te == "") = false := by simp [beq_iff_eq]; exact htene
    simp only [h1, hexf, Bool.or_self, Bool.false_eq_true, if_false]
    rw [hqr]
    have h2 : (qr == "") = false := by simp [beq_iff_eq]; exact hqrne
    simp [h2, hres]
  have hne : ((parsePostgresResults qr).map tagTextSearch).isEmpty = false := by
    cases hp : parsePostgresResults qr with
    | nil => exact absurd hp hparsed
    | cons a as => rfl
  have hsp : (searchPostgres env q).1 =
      (parsePostgresResults qr).map tagTextSearch := by
    unfold searchPostgres
    rw [hq, hvp, htp]
    simp [hne]
  refine ⟨hsp, ?_⟩
  rw [hsp]
  intro r hr
  simp only [List.mem_map] at hr
  obtain ⟨r0, _, rfl⟩ := hr
  simpa [tagTextSearch] using
    lookup_setField_self r0.metadata "searchMethod" (JValue.jstr "text_search")

/-- C8 counterexample: the record produced by the text phase carries
`searchMethod = "text_search"`, and that string differs from the `text`
label the claim states. -/
theorem text_tag_value_counterexample :
    ((searchPostgres c8env "login").1.map
        fun r => r.metadata.lookup "searchMethod") =
      [some (JValue.jstr "text_search")] ∧
    ("text_search" == "text") = false := by
  exact ⟨by rfl, by rfl⟩

/-- Witness for C8 (amended) at the same concrete environment. -/
theorem text_phase_tagging_witness :
    (searchPostgres c8env "login").1 =
      (parsePostgresResults
          "Results:\n--------\nticket_id: KALI-3001 | subject: Login fails").map
        tagTextSearch :=
  (text_phase_tagging c8env "login" "query" "count: 0" "exists: t"
      "Results:\n--------\nticket_id: KALI-3001 | subject: Login fails"
      rfl rfl rfl rfl (by decide) (by rfl) rfl (by decide) (by rfl)
      (List.length_pos.mp (by
        rw [show (parsePostgresResults
          "Results:\n--------\nticket_id: KALI-3001 | subject: Login fails").length = 1
          from rfl]
        exact Nat.one_pos))).1

/-! ### Backoff lemmas for C4 -/

theorem backoff_cap (d : ℚ) : backoff d ≤ 20000 := min_le_right _ _

theorem backoff_nonneg (d : ℚ) (h0 : 0 ≤ d) : 0 ≤ backoff d := by
  unfold backoff
  exact le_min (by nlinarith) (by norm_num)

theorem le_backoff (d : ℚ) (h0 : 0 ≤ d) (h1 : d ≤ 20000) : d ≤ backoff d := by
  unfold backoff
  exact le_min (by nlinarith) h1

theorem connectLoop_chain (o : ℕ → FetchOutcome) (fuel : ℕ) :
    ∀ (n : ℕ) (d : ℚ), 0 ≤ d → d ≤ 20000 →
      List.Chain' (· ≤ ·) (d :: (connectLoop o (fun _ => 0) fuel n d).1) ∧
      ∀ x ∈ (connectLoop o (fun _ => 0) fuel n d).1, x ≤ 20000 := by
  induction fuel with
  | zero => intro n d h0 h1; simp [connectLoop]
  | succ fuel ih =>
    intro n d h0 h1
    unfold connectLoop
    cases ho : o n with
    | ok ts =>
      cases ts with
      | nil =>
        simp only
        have h := ih (n + 1) d h0 h1
        constructor
        · rw [List.chain'_cons]
          exact ⟨le_refl d, h.1⟩
        · intro x hx
          rcases List.mem_cons.mp hx with hx | hx
          · exact hx ▸ h1
          · exact h.2 x hx
      | cons a as => simp
    | thrown e =>
      simp only [add_zero]
      have h := ih (n + 1) (backoff d) (backoff_nonneg d h0) (backoff_cap d)
      constructor
      · rw [List.chain'_cons]
        exact ⟨le_backoff d h0 h1, h.1⟩
      · intro x hx
        rcases List.mem_cons.mp hx with hx | hx
        · exact hx ▸ backoff_cap d
        · exact h.2 x hx

theorem connectLoop_allerr_getD (e : String) (fuel : ℕ) :
    ∀ (k n : ℕ) (d : ℚ), k < fuel →
      ((connectLoop (fun _ => FetchOutcome.thrown e) (fun _ => 0) fuel n d).1).getD k 0 =
        backoff^[k + 1] d := by
  induction fuel with
  | zero => intro k n d h; omega
  | succ fuel ih =>
    intro k n d h
    unfold connectLoop
    simp only [add_zero]
    cases k with
    | zero => simp
    | succ k =>
      simp only [List.getD_cons_succ]
      rw [ih k (n + 1) (backoff d) (by omega), ← Function.iterate_succ_apply]

theorem backoff_iter (k : ℕ) :
    backoff^[k] 2000 = min (2000 * (3 / 2) ^ k) 20000 := by
  induction k with
  | zero =>
    rw [Function.iterate_zero_apply]
    norm_num
  | succ k ih =>
    rw [Function.iterate_succ_apply', ih]
    unfold backoff
    rw [min_mul_of_nonneg _ _ (by norm_num : (0 : ℚ) ≤ 3 / 2), min_assoc]
    norm_num [pow_succ]
    ring_nf

/-- C4 (amended): with the jitter term excluded (drawn as zero), every
retry-delay sequence of `connectWithRetry` is non-decreasing and capped
at the 20000 ms maximum; and on a run where every attempt throws, the
delay slept after attempt `k + 1` equals
`min(base * 1.5 ^ (k + 1), max)` — the formula of the spec.  (On an attempt
that merely returns an empty catalog the delay is left unchanged, and a
non-zero jitter is folded into later backoff steps; both effects are the
subject of the counterexample.) -/
theorem retry_backoff_monotone_capped :
    (∀ outcome : ℕ → FetchOutcome,
      List.Chain' (· ≤ ·) (connectDelays outcome (fun _ => 0)) ∧
      ∀ d ∈ connectDelays outcome (fun _ => 0), d ≤ 20000) ∧
    (∀ (e : String) (k : ℕ), k < 15 →
      (connectDelays (fun _ => FetchOutcome.thrown e) (fun _ => 0)).getD k 0 =
        min (2000 * (3 / 2) ^ (k + 1)) 20000) := by
  constructor
  · intro o
    have h := connectLoop_chain o 15 1 2000 (by norm_num) (by norm_num)
    exact ⟨h.1.tail, h.2⟩
  · intro e k hk
    rw [connectDelays, connectLoop_allerr_getD e 15 k 1 2000 hk, backoff_iter]

/-- Witness for C4 (amended): the first delay of an all-throwing run is
`min(2000 * 1.5, 20000) = 3000`. -/
theorem retry_backoff_witness :
    (connectDelays (fun _ => FetchOutcome.thrown "down") (fun _ => 0)).getD 0 0 =
      min (2000 * (3 / 2) ^ (0 + 1)) 20000 :=
  retry_backoff_monotone_capped.2 "down" 0 (by norm_num)

/-- C4 counterexample: on a run whose attempts keep returning an empty
catalog, the second sleep is still the base delay 2000, strictly below
the value `min(base * 1.5 ^ n, max) + jitter` that the formula of the claim
prescribes with zero jitter for either 1-based or 2-based counting of
that attempt — the code only grows the delay on thrown fetches. -/
theorem retry_delay_formula_counterexample :
    (connectDelays (fun _ => FetchOutcome.ok []) (fun _ => 0)).getD 1 0 = 2000 ∧
    (connectDelays (fun _ => FetchOutcome.ok []) (fun _ => 0)).getD 1 0 <
      min (2000 * (3 / 2) ^ 1) 20000 + 0 ∧
    (connectDelays (fun _ => FetchOutcome.ok []) (fun _ => 0)).getD 1 0 <
      min (2000 * (3 / 2) ^ 2) 20000 + 0 := by
  have h : (connectDelays (fun _ => FetchOutcome.ok []) (fun _ => 0)).getD 1 0 = 2000 := by
    rfl
  refine ⟨h, ?_, ?_⟩ <;> rw [h] <;> norm_num

/-! ### Field-handler lemmas for C7 -/

theorem handleJsonField_raw (fn hd il : String) (ro : List (String × String))
    (st : String × List (String × JValue)) (cv : String)
    (hcv : ro.lookup fn = some cv) (hne : cv ≠ "")
    (hobj : isObjectType (tryParseJson cv) = false) :
    (handleJsonField fn hd il ro st).2 =
      setField st.2 fn (.jobj [("raw", .jstr cv)]) := by
  unfold handleJsonField
  rw [hcv]
  have h1 : (cv == "") = false := by simp [beq_iff_eq]; exact hne
  simp [h1, hobj]

theorem handleJsonField_preserves (fn hd il : String)
    (ro : List (String × String)) (st : String × List (String × JValue))
    (k : String) (hk : k ≠ fn) :
    ((handleJsonField fn hd il ro st).2).lookup k = st.2.lookup k := by
  unfold handleJsonField
  cases hcv : ro.lookup fn with
  | none => rfl
  | some cv =>
    by_cases h1 : cv = ""
    · simp [h1]
    · have hb : (cv == "") = false := by simp [beq_iff_eq]; exact h1
      by_cases h2 : isObjectType (tryParseJson cv) = true
      · simp [hb, h2, lookup_setField_ne _ _ _ _ hk]
      · rw [Bool.not_eq_true] at h2
        simp [hb, h2, lookup_setField_ne _ _ _ _ hk]

theorem handleMetaField_none (ro : List (String × String))
    (st : String × List (String × JValue))
    (h : ro.lookup "metadata" = none) : handleMetaField ro st = st := by
  unfold handleMetaField
  rw [h]

/-- C7 (amended): the repair step never throws — for every non-empty
field string `tryParseJson` either returns a value parsed from the
original or the repaired text, or returns the original string unchanged;
and a `customer` or `resolution` value that still fails after repair is
preserved under the `raw` key of its metadata entry (stated for rows
whose `metadata` column is absent, since a parsed `metadata` object may
overwrite sibling keys).  An unparseable `metadata` column itself is the
subject of the counterexample: it is silently dropped. -/
theorem json_repair_preservation :
    (∀ s : String, s ≠ "" →
      tryParseJson s = .jstr s ∨
      (∃ v, jsonParse s = some v ∧ tryParseJson s = v) ∨
      (∃ v, jsonParse (fixJson s) = some v ∧ tryParseJson s = v)) ∧
    (∀ (ro : List (String × String)) (r : RagResult),
      buildRecord ro = some r → ro.lookup "metadata" = none →
      (∀ cv, ro.lookup "customer" = some cv → cv ≠ "" →
        isObjectType (tryParseJson cv) = false →
        r.metadata.lookup "customer" = some (.jobj [("raw", .jstr cv)])) ∧
      (∀ rv, ro.lookup "resolution" = some rv → rv ≠ "" →
        isObjectType (tryParseJson rv) = false →
        r.metadata.lookup "resolution" = some (.jobj [("raw", .jstr rv)]))) := by
  constructor
  · intro s hs
    unfold tryParseJson
    rw [if_neg hs]
    cases h1 : jsonParse s with
    | some v => exact Or.inr (Or.inl ⟨v, rfl, rfl⟩)
    | none =>
      cases h2 : jsonParse (fixJson s) with
      | some v => exact Or.inr (Or.inr ⟨v, rfl, rfl⟩)
      | none => exact Or.inl rfl
  · intro ro r hbr hmd
    unfold buildRecord at hbr
    by_cases htid : strTruthy (ro.lookup "ticket_id") = true
    · simp only [htid, Bool.not_true, Bool.false_eq_true, if_false,
        Option.some.injEq] at hbr
      constructor
      · intro cv hcv hcvne hcvobj
        rw [← hbr]
        simp only
        rw [handleMetaField_none ro _ hmd,
          handleJsonField_preserves "resolution" _ _ ro _ "customer" (by decide),
          handleJsonField_raw "customer" _ _ ro _ cv hcv hcvne hcvobj]
        exact lookup_setField_self _ _ _
      · intro rv hrv hrvne hrvobj
        rw [← hbr]
        simp only
        rw [handleMetaField_none ro _ hmd,
          handleJsonField_raw "resolution" _ _ ro _ rv hrv hrvne hrvobj]
        exact lookup_setField_self _ _ _
    · rw [Bool.not_eq_true] at htid
      simp [htid] at hbr

/-- Witness for C7 (amended): the repair disjunction at an unparseable
string, and raw-preservation for a concrete row whose `customer` column
cannot be repaired. -/
theorem json_repair_preservation_witness :
    (tryParseJson "@@x" = .jstr "@@x" ∨
      (∃ v, jsonParse "@@x" = some v ∧ tryParseJson "@@x" = v) ∨
      (∃ v, jsonParse (fixJson "@@x") = some v ∧ tryParseJson "@@x" = v)) ∧
    ([("ticket_id", "T2"), ("customer", "@@x")].lookup "customer" = some "@@x" →
      ((buildRecord [("ticket_id", "T2"), ("customer", "@@x")]).getD
          ⟨"", "", []⟩).metadata.lookup
          "customer" = some (.jobj [("raw", .jstr "@@x")])) := by
  constructor
  · exact json_repair_preservation.1 "@@x" (by decide)
  · intro h
    exact (json_repair_preservation.2 [("ticket_id", "T2"), ("customer", "@@x")]
      ((buildRecord [("ticket_id", "T2"), ("customer", "@@x")]).getD ⟨"", "", []⟩)
      (by rfl) (by rfl)).1 "@@x" h (by decide) (by rfl)

/-- C7 counterexample: `c7raw` has both documented quirks (a single
quote, and an unquoted identifier key that the repair does quote), the
repair still fails so `tryParseJson` returns the original string, and
the record built from a row carrying it in the `metadata` column
preserves that string nowhere — its metadata map is exactly the base
map, mentions the raw string in no value at any depth, and the content
does not contain it either. -/
theorem json_repair_metadata_discarded :
    c7raw.data.contains squote = true ∧
    jsIncludes (fixJson c7raw) ("\"note\":" ) = true ∧
    tryParseJson c7raw = .jstr c7raw ∧
    (parsePostgresResults c7resp).map RagResult.metadata =
      [[("ticketId", .jstr "T1"), ("dataSource", .jstr "postgres"),
        ("tableName", .jstr "support_tickets"), ("similarity", JValue.jnull),
        ("recordFields", .jarr [.jstr "metadata"])]] ∧
    fieldsMention c7raw
      (((parsePostgresResults c7resp).headD ⟨"", "", []⟩).metadata) = false ∧
    jsIncludes (((parsePostgresResults c7resp).headD ⟨"", "", []⟩).content)
      c7raw = false := by
  refine ⟨by rfl, by rfl, by rfl, by rfl, by rfl, by rfl⟩

/-! ### Formatting lemmas for C10 -/

theorem str_append_empty (s : String) : s ++ "" = s := by
  cases s
  exact congrArg String.mk (List.append_nil _)

theorem jsBeginsWith_append (p t : String) : jsBeginsWith (p ++ t) p = true := by
  show leadsWith p.data (p ++ t).data = true
  rw [String.data_append]
  exact leadsWith_append p.data t.data

theorem join_cons (s : String) (l : List String) :
    String.join (s :: l) = s ++ String.join l := by
  have key : ∀ (l : List String) (a b : String),
      l.foldl (· ++ ·) (a ++ b) = a ++ l.foldl (· ++ ·) b := by
    intro l
    induction l with
    | nil => intro a b; rfl
    | cons x xs ih =>
      intro a b
      simp only [List.foldl_cons, String.append_assoc, ih]
  show List.foldl (· ++ ·) ("" ++ s) l = s ++ List.foldl (· ++ ·) "" l
  have h1 : ("" ++ s : String) = s ++ "" := by
    cases s
    refine congrArg String.mk ?_
    simp
  rw [h1, key l s ""]

theorem sectionFor_ok (i : Nat) (r : RagResult) (h : imagesOk r = true) :
    ∃ rest, sectionFor i r =
      .ok ("#### Source " ++ Nat.repr (i + 1) ++ ": " ++ rest) := by
  unfold sectionFor
  by_cases hm : r.metadata.isEmpty
  · simp only [hm, if_true]
    exact ⟨_, by simp only [String.append_assoc]; rfl⟩
  · simp only [hm, Bool.false_eq_true, if_false]
    by_cases hS3 : jsBeginsWith r.source "s3://" = true
    · simp only [hS3, if_true]
      exact ⟨_, by simp only [String.append_assoc]; rfl⟩
    · simp only [hS3, Bool.false_eq_true, if_false]
      by_cases hPg : (jsIncludes r.source "postgres:" &&
          jsTruthy (mGet r.metadata "images")) = true
      · simp only [hPg, if_true]
        cases himg : mGet r.metadata "images" with
        | jarr imgs =>
          simp only
          exact ⟨_, by simp only [String.append_assoc]; rfl⟩
        | jstr s =>
          exfalso; unfold imagesOk at h; rw [himg] at h; rw [himg] at hPg
          simp [hPg] at h
        | jnum m e =>
          exfalso; unfold imagesOk at h; rw [himg] at h; rw [himg] at hPg
          simp [hPg] at h
        | jbool b =>
          exfalso; unfold imagesOk at h; rw [himg] at h; rw [himg] at hPg
          simp [hPg] at h
        | jnull =>
          exfalso; unfold imagesOk at h; rw [himg] at h; rw [himg] at hPg
          simp [hPg] at h
        | jundefined =>
          exfalso; unfold imagesOk at h; rw [himg] at h; rw [himg] at hPg
          simp [hPg] at h
        | jobj fs =>
          exfalso; unfold imagesOk at h; rw [himg] at h; rw [himg] at hPg
          simp [hPg] at h
      · simp only [hPg, Bool.false_eq_true, if_false]
        exact ⟨_, by simp only [String.append_assoc]; rfl⟩

theorem sectionTextsFrom_length (rs : List RagResult) :
    ∀ i, (sectionTextsFrom i rs).length = rs.length := by
  induction rs with
  | nil => intro i; rfl
  | cons r rest ih =>
    intro i
    simp [sectionTextsFrom, ih]

theorem formatLoop_ok (rs : List RagResult) :
    ∀ (i : Nat) (acc : String), (∀ r ∈ rs, imagesOk r = true) →
      formatLoop i rs acc = .ok (acc ++ String.join (sectionTextsFrom i rs)) ∧
      ∀ j, j < rs.length →
        jsBeginsWith ((sectionTextsFrom i rs).getD j "")
          ("#### Source " ++ Nat.repr (i + j + 1) ++ ": ") = true := by
  induction rs with
  | nil =>
    intro i acc h
    refine ⟨?_, by intro j hj; simp at hj⟩
    show Except.ok acc = _
    rw [show String.join (sectionTextsFrom i []) = "" from rfl, str_append_empty]
  | cons r rest ih =>
    intro i acc h
    obtain ⟨s0, hs0⟩ := sectionFor_ok i r (h r (by simp))
    obtain ⟨hloop, hsec⟩ := ih (i + 1)
      (acc ++ ("#### Source " ++ Nat.repr (i + 1) ++ ": " ++ s0))
      (fun x hx => h x (by simp [hx]))
    have htexts : sectionTextsFrom i (r :: rest) =
        ("#### Source " ++ Nat.repr (i + 1) ++ ": " ++ s0) ::
          sectionTextsFrom (i + 1) rest := by
      rw [show sectionTextsFrom i (r :: rest) =
        (match sectionFor i r with
          | .ok s => s
          | .error _ => "") :: sectionTextsFrom (i + 1) rest from rfl, hs0]
    constructor
    · show (match sectionFor i r with
        | .ok s => formatLoop (i + 1) rest (acc ++ s)
        | .error e => .error e) = _
      rw [hs0]
      show formatLoop (i + 1) rest
        (acc ++ ("#### Source " ++ Nat.repr (i + 1) ++ ": " ++ s0)) = _
      rw [hloop, htexts, join_cons, String.append_assoc]
    · intro j hj
      rw [htexts]
      cases j with
      | zero =>
        show jsBeginsWith ("#### Source " ++ Nat.repr (i + 1) ++ ": " ++ s0)
          ("#### Source " ++ Nat.repr (i + 0 + 1) ++ ": ") = true
        rw [show i + 0 + 1 = i + 1 from rfl]
        exact jsBeginsWith_append ("#### Source " ++ Nat.repr (i + 1) ++ ": ") s0
      | succ j =>
        have := hsec j (by simpa using hj)
        rw [show i + (j + 1) + 1 = i + 1 + j + 1 by omega]
        simpa using this

/-- C10: `formatRagContext` yields the empty string on an empty (in the
source also null) evidence list; on a non-empty list it yields the
`### Relevant Information:` header, then exactly one section per record
in list order — section `j` opening with the numbered
`#### Source j+1: ` heading — and finally the fixed closing instruction
block.  (Hypothesis: no record carries a truthy non-array
`metadata.images` value, which would make the source throw a
`TypeError`.) -/
theorem format_context_structure (rs : List RagResult)
    (h : ∀ r ∈ rs, imagesOk r = true) :
    formatRagContext [] = .ok "" ∧
    (rs ≠ [] →
      (sectionTextsFrom 0 rs).length = rs.length ∧
      formatRagContext rs =
        .ok ("### Relevant Information:\n\n" ++
          String.join (sectionTextsFrom 0 rs) ++ closingBlock) ∧
      ∀ j, j < rs.length →
        jsBeginsWith ((sectionTextsFrom 0 rs).getD j "")
          ("#### Source " ++ Nat.repr (j + 1) ++ ": ") = true) := by
  refine ⟨by rfl, ?_⟩
  intro hne
  obtain ⟨hloop, hsec⟩ := formatLoop_ok rs 0 "### Relevant Information:\n\n" h
  refine ⟨sectionTextsFrom_length rs 0, ?_, ?_⟩
  · unfold formatRagContext
    have hie : rs.isEmpty = false := by
      cases rs with
      | nil => exact absurd rfl hne
      | cons a as => rfl
    rw [hie]
    simp only [Bool.false_eq_true, if_false]
    rw [hloop]
  · intro j hj
    simpa using hsec j hj

/-- Witness for C10 at a one-record list: the formatted block decomposes
into header, the single section, and the closing block, and the section
opens with the `#### Source 1: ` heading. -/
theorem format_context_structure_witness :
    formatRagContext ([⟨"c", "s3://b/k", []⟩] : List RagResult) =
      .ok ("### Relevant Information:\n\n" ++
        String.join (sectionTextsFrom 0 [⟨"c", "s3://b/k", []⟩]) ++ closingBlock) ∧
    jsBeginsWith ((sectionTextsFrom 0 ([⟨"c", "s3://b/k", []⟩] : List RagResult)).getD 0 "")
      ("#### Source " ++ Nat.repr (0 + 1) ++ ": ") = true := by
  have h := format_context_structure [⟨"c", "s3://b/k", []⟩]
    (by intro r hr; rw [List.mem_singleton] at hr; subst hr; rfl)
  have h2 := h.2 (by simp)
  exact ⟨h2.2.1, h2.2.2 0 (by norm_num)⟩

end MCP
